import Mathlib

/-!
Verification of the record-reconciliation pipeline of `my_gis_tool.py`.

Python strings are embedded as lists of Unicode code points (`Str := List Nat`);
`pyStr` injects a Lean string literal.  The string helpers (`pyStrip`, `pyUpper`,
`pyLower`, `pySplitSp`, `pyTokens`, `joinSp`, `hasSub`, `endsIn`) embed the
Python operations `str.strip`, `str.upper`, `str.lower`, `str.split(' ')`,
`str.split()`, `' '.join`, `in` (substring) and `str.endswith` used by the tool.
-/

/-- Python strings, as lists of Unicode code points. -/
abbrev Str : Type := List Nat

/-- Inject a Lean string literal as a `Str`. -/
def pyStr (s : String) : Str := s.data.map Char.toNat

/-- Python's whitespace set used by `str.strip` / `str.split()`:
space, tab, newline, carriage return, vertical tab, form feed. -/
def isWs (n : Nat) : Bool :=
  decide (n = 32 ∨ n = 9 ∨ n = 10 ∨ n = 13 ∨ n = 11 ∨ n = 12)

/-- Python `str.isdigit` restricted to ASCII, as used on address tokens. -/
def isDigitN (n : Nat) : Bool := decide (48 ≤ n ∧ n ≤ 57)

/-- ASCII uppercasing of one code point (Python `str.upper`). -/
def upCh (n : Nat) : Nat := if 97 ≤ n ∧ n ≤ 122 then n - 32 else n

/-- ASCII lowercasing of one code point (Python `str.lower`). -/
def lowCh (n : Nat) : Nat := if 65 ≤ n ∧ n ≤ 90 then n + 32 else n

/-- Python `str.upper`. -/
def pyUpper (s : Str) : Str := s.map upCh

/-- Python `str.lower`. -/
def pyLower (s : Str) : Str := s.map lowCh

/-- Python `str.strip()`: drop whitespace from both ends. -/
def pyStrip (s : Str) : Str :=
  ((List.dropWhile isWs s).reverse.dropWhile isWs).reverse

/-- Leading-segment test: `pfxL p s` holds when `p` is a prefix of `s`. -/
def pfxL : Str → Str → Bool
  | [], _ => true
  | _ :: _, [] => false
  | a :: as, b :: bs => a == b && pfxL as bs

/-- Python substring test `needle in hay`. -/
def hasSub (needle : Str) : Str → Bool
  | [] => pfxL needle []
  | c :: rest => pfxL needle (c :: rest) || hasSub needle rest

/-- Python `s.endswith(sfx)`. -/
def endsIn (sfx s : Str) : Bool := pfxL sfx.reverse s.reverse

/-- Drop the last `n` code points (Python `s[:-n]`). -/
def rdrop (n : Nat) (s : Str) : Str := (s.reverse.drop n).reverse

/-- Python `s.split(' ')`: split at every single space, keeping empty parts.
Never returns the empty list, so indexing `[0]` is total. -/
def pySplitSp : Str → List Str
  | [] => [[]]
  | c :: rest =>
    if c == 32 then [] :: pySplitSp rest
    else
      match pySplitSp rest with
      | [] => [[c]]
      | t :: ts => (c :: t) :: ts

/-- Python `s.split()`: maximal runs of non-whitespace, empties dropped. -/
def pyTokens : Str → List Str
  | [] => []
  | c :: rest =>
    if isWs c then pyTokens rest
    else
      match pyTokens rest with
      | [] => [[c]]
      | t :: ts =>
        match rest with
        | [] => [[c]]
        | d :: _ => if isWs d then [c] :: t :: ts else (c :: t) :: ts

/-- Python `' '.join`. -/
def joinSp : List Str → Str
  | [] => []
  | [t] => t
  | t :: ts => t ++ 32 :: joinSp ts

/-- Collapse internal whitespace runs to single spaces, as `" ".join(addr.split())`. -/
def pyCollapse (s : Str) : Str := joinSp (pyTokens s)

/-- A raw spreadsheet cell: either a pandas NA value (NaN/None) or a string. -/
inductive CellValue where
  | na : CellValue
  | str : Str → CellValue
deriving DecidableEq

/-- The fixed vocabulary of `is_vague_address` (source lines 33-39). -/
def vague_terms : List Str :=
  [pyStr "INTERSEC", pyStr "CORNER", pyStr " OF ",
   pyStr "NORTH OF", pyStr "SOUTH OF", pyStr "EAST OF", pyStr "WEST OF",
   pyStr "1 MI", pyStr "2 MI", pyStr "3 MI", pyStr "MILE",
   pyStr "NEAR", pyStr "ADJACENT", pyStr "BEHIND", pyStr "VICINITY",
   pyStr "APPROX", pyStr "&"]

/-- The filter `is_vague_address` (source lines 23-52): uppercase and strip, then
keyword trigger over `vague_terms`, then the first-token digit check on
`addr.split(' ')[0]`. -/
def is_vague_address (addr : Str) : Bool :=
  let a := pyStrip (pyUpper addr)
  if vague_terms.any (fun t => hasSub t a) then true
  else if !(((pySplitSp a).headD []).any isDigitN) then true
  else false

/-- The string part of `clean_address_string` (source lines 57-60): strip,
map a literal (case-insensitive) "nan" to "", drop a trailing ".0", collapse
internal whitespace. -/
def clean_core (raw : Str) : Str :=
  if pyLower (pyStrip raw) = pyStr "nan" then []
  else if endsIn (pyStr ".0") (pyStrip raw) then pyCollapse (rdrop 2 (pyStrip raw))
  else pyCollapse (pyStrip raw)

/-- The cleaner `clean_address_string` (source lines 54-60): `pd.isna` values become "". -/
def clean_address_string : CellValue → Str
  | CellValue.na => []
  | CellValue.str s => clean_core s

/-- One input row: the `address` cell plus the remaining columns, carried
through the pipeline untouched. -/
structure Row where
  address : CellValue
  others : List (Str × Str)
deriving DecidableEq

/-- Outcome of one `geolocator.geocode` call: a location, `None`, or a raised
exception carrying its message. -/
inductive GeocodeOutcome where
  | found : ℚ → ℚ → String → GeocodeOutcome
  | notFound : GeocodeOutcome
  | err : String → GeocodeOutcome

/-- The target property: `site_lat`, `site_lon`, `search_radius` (miles). -/
structure TargetSite where
  lat : ℚ
  lon : ℚ
  radius : ℚ

/-- The three output buckets (`matched` embeds the Python list `matches`). -/
inductive Bucket where
  | matched : Bucket
  | oob : Bucket
  | ngcs : Bucket
deriving DecidableEq

/-- A row after the loop body ran: the original row plus the keys the loop may
set (`status`, `reason`, `mapped_lat`, `mapped_lon`, `miles_from_site`,
`google_address`); absent keys are `none`. -/
structure Enriched where
  row : Row
  status : String
  reason : Option String
  mapped_lat : Option ℚ
  mapped_lon : Option ℚ
  miles_from_site : Option ℚ
  google_address : Option String

/-- Python `round` to integer: nearest, ties to even (banker's rounding). -/
def pyRoundInt (q : ℚ) : ℤ :=
  let f := ⌊q⌋
  let r := q - f
  if r < 1/2 then f
  else if 1/2 < r then f + 1
  else if f % 2 = 0 then f else f + 1

/-- Python `round(x, 3)`. -/
def pyRound3 (q : ℚ) : ℚ := (pyRoundInt (q * 1000) : ℚ) / 1000

/-- The loop body for one record (source lines 129-171).  `geo` is the
geocoding backend (one call per record at most, on the cleaned address);
`gdist` is `geodesic(...).miles` on the two coordinate pairs.  Returns the
enriched row, the bucket it is appended to, and the list of geocoder calls
issued for this record. -/
def processRecord (geo : Str → GeocodeOutcome) (gdist : ℚ → ℚ → ℚ → ℚ → ℚ)
    (site : TargetSite) (row : Row) : Enriched × Bucket × List Str :=
  let addr := clean_address_string row.address
  if is_vague_address addr then
    ({ row := row, status := "NGC (Orphan)",
       reason := some "Vague Description / Intersection",
       mapped_lat := none, mapped_lon := none,
       miles_from_site := none, google_address := none },
     Bucket.ngcs, [])
  else
    match geo addr with
    | GeocodeOutcome.found lat lon fmt =>
      let dist := gdist site.lat site.lon lat lon
      if dist ≤ site.radius then
        ({ row := row, status := "Match", reason := none,
           mapped_lat := some lat, mapped_lon := some lon,
           miles_from_site := some (pyRound3 dist), google_address := some fmt },
         Bucket.matched, [addr])
      else
        ({ row := row, status := "Out of Bounds", reason := none,
           mapped_lat := some lat, mapped_lon := some lon,
           miles_from_site := some (pyRound3 dist), google_address := some fmt },
         Bucket.oob, [addr])
    | GeocodeOutcome.notFound =>
      ({ row := row, status := "NGC (Not Found)",
         reason := some "Google returned zero results",
         mapped_lat := none, mapped_lon := none,
         miles_from_site := none, google_address := none },
       Bucket.ngcs, [addr])
    | GeocodeOutcome.err msg =>
      ({ row := row, status := "Error", reason := some msg,
         mapped_lat := none, mapped_lon := none,
         miles_from_site := none, google_address := none },
       Bucket.ngcs, [addr])

/-- The three accumulated bucket lists of one run. -/
structure RunResult where
  matched : List Enriched
  oob : List Enriched
  ngcs : List Enriched

/-- The per-record loop over `master_df` (source lines 124-174): each row is
processed in order and appended to exactly the bucket `processRecord` chose. -/
def processAll (geo : Str → GeocodeOutcome) (gdist : ℚ → ℚ → ℚ → ℚ → ℚ)
    (site : TargetSite) : List Row → RunResult
  | [] => { matched := [], oob := [], ngcs := [] }
  | r :: rest =>
    let p := processRecord geo gdist site r
    let acc := processAll geo gdist site rest
    match p.2.1 with
    | Bucket.matched => { acc with matched := p.1 :: acc.matched }
    | Bucket.oob => { acc with oob := p.1 :: acc.oob }
    | Bucket.ngcs => { acc with ngcs := p.1 :: acc.ngcs }

/-- A parsed tabular file: its column names and its rows. -/
structure DF where
  cols : List Str
  rows : List Row
deriving DecidableEq

/-- Column-name standardization `df.columns.str.strip().str.lower()` (source line 109). -/
def stdDF (df : DF) : DF :=
  { cols := df.cols.map (fun c => pyLower (pyStrip c)), rows := df.rows }

/-- The file-loading loop (source lines 104-113).  Each input is a file name
together with the parse attempt's outcome (`pd.read_csv` / `pd.read_excel`),
which may raise.  Returns the retained tables and the `st.error` messages
issued, both in file order. -/
def loadFiles : List (String × Except String DF) → List DF × List String
  | [] => ([], [])
  | (name, p) :: rest =>
    let r := loadFiles rest
    match p with
    | Except.ok df =>
      if pyStr "address" ∈ (stdDF df).cols then ((stdDF df) :: r.1, r.2)
      else r
    | Except.error e =>
      (r.1, ("Could not read " ++ name ++ ": " ++ e) :: r.2)

/-- Modelled from the spec: the zip-code resolution step of Variant A (the
coordinate-agnostic geocoding engine), which is absent from `src/` — the code
there only implements the key-authenticated GoogleV3 engine.  Per the spec,
the zip code is resolved by probing the column aliases `zip`, `zip code`,
`zipcode`, `zip_code` in this fixed order and taking the first one present. -/
def resolveZip (row : List (Str × Str)) : Option Str :=
  match List.lookup (pyStr "zip") row with
  | some v => some v
  | none =>
    match List.lookup (pyStr "zip code") row with
    | some v => some v
    | none =>
      match List.lookup (pyStr "zipcode") row with
      | some v => some v
      | none => List.lookup (pyStr "zip_code") row

/-- The vagueness vocabulary as the specification lists it. -/
def spec_vague_vocab : List Str :=
  [pyStr "INTERSEC", pyStr "CORNER", pyStr " OF ",
   pyStr "NORTH OF", pyStr "SOUTH OF", pyStr "EAST OF", pyStr "WEST OF",
   pyStr "1 MI", pyStr "2 MI", pyStr "3 MI", pyStr "MILE",
   pyStr "NEAR", pyStr "ADJACENT", pyStr "BEHIND", pyStr "VICINITY",
   pyStr "APPROX", pyStr "&"]

/-- The vagueness classifier exactly as the specification states it: uppercase
the address (no stripping), keyword trigger on the vocabulary, otherwise vague
iff the first space-delimited token contains no digit. -/
def isVagueSpecStated (address : Str) : Bool :=
  let u := pyUpper address
  if spec_vague_vocab.any (fun t => hasSub t u) then true
  else if !((u.takeWhile (fun c => !(c == 32))).any isDigitN) then true
  else false

/-- The specification's classifier amended with the whitespace strip the code
performs (`addr.upper().strip()`): uppercase and strip, keyword trigger,
otherwise vague iff the first space-delimited token contains no digit. -/
def isVagueSpec (address : Str) : Bool :=
  let u := pyStrip (pyUpper address)
  if spec_vague_vocab.any (fun t => hasSub t u) then true
  else if !((u.takeWhile (fun c => !(c == 32))).any isDigitN) then true
  else false

/-- Tokens produced by `pyTokens` are nonempty and whitespace-free. -/
def wfToks (T : List Str) : Prop :=
  ∀ t ∈ T, t ≠ [] ∧ ∀ c ∈ t, isWs c = false

example : clean_address_string (CellValue.str (pyStr "  123   Main  St ")) = pyStr "123 Main St" := by decide
example : clean_address_string (CellValue.str (pyStr "NaN")) = pyStr "" := by decide
example : clean_address_string (CellValue.str (pyStr "6839.0")) = pyStr "6839" := by decide
example : is_vague_address (pyStr "Lake Hart Property") = true := by decide
example : is_vague_address (pyStr "6839 Narcoossee Rd") = false := by decide
example : is_vague_address (pyStr "123 Main St & 5th Ave") = true := by decide
example : is_vague_address (pyStr "") = true := by decide

/-- A vague cleaned address short-circuits the loop body: fixed status and
reason, the orphan bucket, and no geocoder call. -/
lemma processRecord_vague (geo : Str → GeocodeOutcome) (gdist : ℚ → ℚ → ℚ → ℚ → ℚ)
    (site : TargetSite) (r : Row)
    (hv : is_vague_address (clean_address_string r.address) = true) :
    processRecord geo gdist site r =
      ({ row := r, status := "NGC (Orphan)",
         reason := some "Vague Description / Intersection",
         mapped_lat := none, mapped_lon := none,
         miles_from_site := none, google_address := none },
       Bucket.ngcs, []) := by
  simp [processRecord, hv]

/-- A raised geocoder exception routes the record to the orphan bucket with
status `Error` and the exception's message as reason. -/
lemma processRecord_err (geo : Str → GeocodeOutcome) (gdist : ℚ → ℚ → ℚ → ℚ → ℚ)
    (site : TargetSite) (r : Row) (msg : String)
    (hv : is_vague_address (clean_address_string r.address) = false)
    (hg : geo (clean_address_string r.address) = GeocodeOutcome.err msg) :
    processRecord geo gdist site r =
      ({ row := r, status := "Error", reason := some msg,
         mapped_lat := none, mapped_lon := none,
         miles_from_site := none, google_address := none },
       Bucket.ngcs, [clean_address_string r.address]) := by
  simp [processRecord, hv, hg]

/-- The empty address is classified vague. -/
lemma vague_nil : is_vague_address [] = true := by decide

/-- Every geocoder call the loop body issues carries a nonempty search string. -/
lemma processRecord_calls_nonempty (geo : Str → GeocodeOutcome)
    (gdist : ℚ → ℚ → ℚ → ℚ → ℚ) (site : TargetSite) (r : Row) :
    ∀ s ∈ (processRecord geo gdist site r).2.2, s ≠ [] := by
  intro s hs
  by_cases hv : is_vague_address (clean_address_string r.address) = true
  · rw [processRecord_vague geo gdist site r hv] at hs
    simp at hs
  · have hv' : is_vague_address (clean_address_string r.address) = false :=
      Bool.eq_false_iff.mpr hv
    have hne : clean_address_string r.address ≠ [] := by
      intro h0
      rw [h0, vague_nil] at hv'
      exact Bool.true_eq_false.mp hv'
    have hsa : s = clean_address_string r.address := by
      cases hg : geo (clean_address_string r.address) with
      | found lat lon fmt =>
        by_cases hd : gdist site.lat site.lon lat lon ≤ site.radius <;>
          simp [processRecord, hv', hg, hd] at hs <;> exact hs
      | notFound => simp [processRecord, hv', hg] at hs; exact hs
      | err msg => simp [processRecord, hv', hg] at hs; exact hs
    rw [hsa]; exact hne

/-- C1: every input record is appended to exactly one of the three buckets, so
the bucket sizes sum to the number of input records. -/
theorem run_buckets_partition_input (geo : Str → GeocodeOutcome)
    (gdist : ℚ → ℚ → ℚ → ℚ → ℚ) (site : TargetSite) (rows : List Row) :
    (processAll geo gdist site rows).matched.length +
    (processAll geo gdist site rows).oob.length +
    (processAll geo gdist site rows).ngcs.length = rows.length := by
  induction rows with
  | nil => rfl
  | cons r rest ih =>
    simp only [processAll]
    cases h : (processRecord geo gdist site r).2.1 <;>
      simp only [h, List.length_cons] <;> omega

/-- C6: a record whose cleaned address is vague becomes terminal with status
`NGC (Orphan)` and the fixed reason `Vague Description / Intersection`, lands
in the orphan bucket, and the geocoder is never invoked for it. -/
theorem vague_record_is_orphan_without_geocoding (geo : Str → GeocodeOutcome)
    (gdist : ℚ → ℚ → ℚ → ℚ → ℚ) (site : TargetSite) (r : Row)
    (hv : is_vague_address (clean_address_string r.address) = true) :
    (processRecord geo gdist site r).1.status = "NGC (Orphan)" ∧
    (processRecord geo gdist site r).1.reason =
      some "Vague Description / Intersection" ∧
    (processRecord geo gdist site r).2.1 = Bucket.ngcs ∧
    (processRecord geo gdist site r).2.2 = [] := by
  rw [processRecord_vague geo gdist site r hv]
  exact ⟨rfl, rfl, rfl, rfl⟩

/-- Witness for C6 at the concrete address "Lake Hart Property". -/
theorem vague_record_is_orphan_without_geocoding_witness :
    is_vague_address (clean_address_string
      (CellValue.str (pyStr "Lake Hart Property"))) = true ∧
    (processRecord (fun _ => GeocodeOutcome.notFound) (fun _ _ _ _ => 0)
      { lat := 0, lon := 0, radius := 1 }
      { address := CellValue.str (pyStr "Lake Hart Property"), others := [] }).2.2 = [] :=
  ⟨by decide,
   (vague_record_is_orphan_without_geocoding (fun _ => GeocodeOutcome.notFound)
     (fun _ _ _ _ => 0) { lat := 0, lon := 0, radius := 1 }
     { address := CellValue.str (pyStr "Lake Hart Property"), others := [] }
     (by decide)).2.2.2⟩

/-- C3: a provider exception for a record puts it (only) in the orphan bucket
with status `Error` and the exception message, verbatim, as reason; the rest
of the run is unaffected. -/
theorem provider_error_is_recovered_orphan (geo : Str → GeocodeOutcome)
    (gdist : ℚ → ℚ → ℚ → ℚ → ℚ) (site : TargetSite) (r : Row) (msg : String)
    (rest : List Row)
    (hv : is_vague_address (clean_address_string r.address) = false)
    (hg : geo (clean_address_string r.address) = GeocodeOutcome.err msg) :
    (processRecord geo gdist site r).2.1 = Bucket.ngcs ∧
    (processRecord geo gdist site r).1.status = "Error" ∧
    (processRecord geo gdist site r).1.reason = some msg ∧
    processAll geo gdist site (r :: rest) =
      { matched := (processAll geo gdist site rest).matched,
        oob := (processAll geo gdist site rest).oob,
        ngcs := (processRecord geo gdist site r).1 ::
          (processAll geo gdist site rest).ngcs } := by
  rw [processAll, processRecord_err geo gdist site r msg hv hg]
  exact ⟨rfl, rfl, rfl, rfl⟩

/-- Witness for C3: a timeout-style exception on "123 Main St". -/
theorem provider_error_is_recovered_orphan_witness :
    is_vague_address (clean_address_string
      (CellValue.str (pyStr "123 Main St"))) = false ∧
    (processRecord (fun _ => GeocodeOutcome.err "Read timed out")
      (fun _ _ _ _ => 0) { lat := 0, lon := 0, radius := 1 }
      { address := CellValue.str (pyStr "123 Main St"), others := [] }).1.reason =
        some "Read timed out" :=
  ⟨by decide,
   (provider_error_is_recovered_orphan (fun _ => GeocodeOutcome.err "Read timed out")
     (fun _ _ _ _ => 0) { lat := 0, lon := 0, radius := 1 }
     { address := CellValue.str (pyStr "123 Main St"), others := [] }
     "Read timed out" [] (by decide) rfl).2.2.1⟩

/-- C4: for a geocoded record the verdict is `Match` exactly when the raw
geodesic distance is at most the radius (inclusive boundary), `Out of Bounds`
otherwise, and the reported `miles_from_site` is the distance rounded to three
decimal places. -/
theorem geocoded_verdict_inclusive_and_rounded (geo : Str → GeocodeOutcome)
    (gdist : ℚ → ℚ → ℚ → ℚ → ℚ) (site : TargetSite) (r : Row)
    (lat lon : ℚ) (fmt : String)
    (hv : is_vague_address (clean_address_string r.address) = false)
    (hg : geo (clean_address_string r.address) = GeocodeOutcome.found lat lon fmt) :
    ((processRecord geo gdist site r).1.status = "Match" ↔
       gdist site.lat site.lon lat lon ≤ site.radius) ∧
    ((processRecord geo gdist site r).2.1 = Bucket.matched ↔
       gdist site.lat site.lon lat lon ≤ site.radius) ∧
    ((processRecord geo gdist site r).1.status = "Out of Bounds" ↔
       ¬ gdist site.lat site.lon lat lon ≤ site.radius) ∧
    (processRecord geo gdist site r).1.miles_from_site =
      some (pyRound3 (gdist site.lat site.lon lat lon)) := by
  have hm : ("Out of Bounds" : String) ≠ "Match" := by decide
  have hm' : ("Match" : String) ≠ "Out of Bounds" := by decide
  by_cases hd : gdist site.lat site.lon lat lon ≤ site.radius <;>
    simp [processRecord, hv, hg, hd, hm, hm']

/-- Witness for C4 at a distance exactly equal to the radius: the boundary is
inclusive, the record matches. -/
theorem geocoded_verdict_inclusive_and_rounded_witness :
    is_vague_address (clean_address_string
      (CellValue.str (pyStr "123 Main St"))) = false ∧
    ((processRecord (fun _ => GeocodeOutcome.found 2 3 "X")
        (fun _ _ _ _ => (1 : ℚ)) { lat := 0, lon := 0, radius := 1 }
        { address := CellValue.str (pyStr "123 Main St"), others := [] }).1.status =
          "Match" ↔ (1 : ℚ) ≤ (1 : ℚ)) :=
  ⟨by decide,
   (geocoded_verdict_inclusive_and_rounded (fun _ => GeocodeOutcome.found 2 3 "X")
     (fun _ _ _ _ => (1 : ℚ)) { lat := 0, lon := 0, radius := 1 }
     { address := CellValue.str (pyStr "123 Main St"), others := [] }
     2 3 "X" (by decide) rfl).1⟩

/-- C10: a missing/NA address, or any address cleaning to the empty string, is
classified vague and lands in the orphan bucket without a geocoder call; more
generally the geocoder is never called with an empty search string. -/
theorem empty_address_is_orphan_never_geocoded (geo : Str → GeocodeOutcome)
    (gdist : ℚ → ℚ → ℚ → ℚ → ℚ) (site : TargetSite) (r : Row)
    (h : r.address = CellValue.na ∨ clean_address_string r.address = []) :
    is_vague_address (clean_address_string r.address) = true ∧
    (processRecord geo gdist site r).2.1 = Bucket.ngcs ∧
    (processRecord geo gdist site r).2.2 = [] ∧
    ∀ (r' : Row) (s : Str), s ∈ (processRecord geo gdist site r').2.2 → s ≠ [] := by
  have hc : clean_address_string r.address = [] := by
    rcases h with h | h
    · rw [h]; rfl
    · exact h
  have hv : is_vague_address (clean_address_string r.address) = true := by
    rw [hc]; exact vague_nil
  rw [processRecord_vague geo gdist site r hv]
  exact ⟨hv, rfl, rfl, fun r' s hs =>
    processRecord_calls_nonempty geo gdist site r' s hs⟩

/-- Witness for C10 at an NA address cell. -/
theorem empty_address_is_orphan_never_geocoded_witness :
    (({ address := CellValue.na, others := [] } : Row).address = CellValue.na ∨
      clean_address_string ({ address := CellValue.na, others := [] } : Row).address = []) ∧
    (processRecord (fun _ => GeocodeOutcome.notFound) (fun _ _ _ _ => 0)
      { lat := 0, lon := 0, radius := 1 }
      { address := CellValue.na, others := [] }).2.1 = Bucket.ngcs :=
  ⟨Or.inl rfl,
   (empty_address_is_orphan_never_geocoded (fun _ => GeocodeOutcome.notFound)
     (fun _ _ _ _ => 0) { lat := 0, lon := 0, radius := 1 }
     { address := CellValue.na, others := [] } (Or.inl rfl)).2.1⟩

/-- C9 (Variant A is spec-modelled): zip resolution probes the aliases in the
fixed order `zip`, `zip code`, `zipcode`, `zip_code` and takes the first one
present; in particular the column `zip` always wins when present. -/
theorem zip_alias_precedence (row : List (Str × Str)) (v : Str) :
    (List.lookup (pyStr "zip") row = some v → resolveZip row = some v) ∧
    (List.lookup (pyStr "zip") row = none →
      List.lookup (pyStr "zip code") row = some v → resolveZip row = some v) ∧
    (List.lookup (pyStr "zip") row = none →
      List.lookup (pyStr "zip code") row = none →
      List.lookup (pyStr "zipcode") row = some v → resolveZip row = some v) ∧
    (List.lookup (pyStr "zip") row = none →
      List.lookup (pyStr "zip code") row = none →
      List.lookup (pyStr "zipcode") row = none →
      resolveZip row = List.lookup (pyStr "zip_code") row) := by
  refine ⟨fun h1 => ?_, fun h1 h2 => ?_, fun h1 h2 h3 => ?_, fun h1 h2 h3 => ?_⟩ <;>
    simp [resolveZip, *]

/-- Witness for C9: with both `zip code` and `zip` present, `zip` wins. -/
theorem zip_alias_precedence_witness :
    List.lookup (pyStr "zip") [(pyStr "zip code", pyStr "99999"), (pyStr "zip", pyStr "11111")]
      = some (pyStr "11111") ∧
    resolveZip [(pyStr "zip code", pyStr "99999"), (pyStr "zip", pyStr "11111")]
      = some (pyStr "11111") :=
  ⟨by decide,
   (zip_alias_precedence
     [(pyStr "zip code", pyStr "99999"), (pyStr "zip", pyStr "11111")]
     (pyStr "11111")).1 (by decide)⟩

/-- C8 counterexample: a file that parses but has no `address` column is
skipped silently — the error list stays empty, contradicting the claim that an
ingestion error is reported for it. -/
theorem ingestion_missing_address_column_not_reported :
    loadFiles [("sites.csv", Except.ok { cols := [pyStr "city"], rows := [] })] =
      ([], []) := by
  rfl

/-- C8 as amended: a file whose parse attempt raises is reported (one
`Could not read` message) and skipped; a file that parses but lacks an
`address` column is skipped silently with no report; qualifying files
contribute their (column-standardized) tables; the run always continues
through all files, in order. -/
theorem ingestion_errors_characterized (files : List (String × Except String DF)) :
    (loadFiles files).1 = files.filterMap (fun f =>
      match f.2 with
      | Except.ok df =>
        if pyStr "address" ∈ (stdDF df).cols then some (stdDF df) else none
      | Except.error _ => none) ∧
    (loadFiles files).2 = files.filterMap (fun f =>
      match f.2 with
      | Except.ok _ => none
      | Except.error e => some ("Could not read " ++ f.1 ++ ": " ++ e)) := by
  induction files with
  | nil => exact ⟨rfl, rfl⟩
  | cons f rest ih =>
    obtain ⟨name, p⟩ := f
    cases p with
    | ok df =>
      by_cases h : pyStr "address" ∈ (stdDF df).cols <;>
        simp [loadFiles, h, ih.1, ih.2]
    | error e => simp [loadFiles, ih.1, ih.2]

/-- C2 counterexample: with a leading space, the classifier as the spec states
it (no strip) says vague, while the code (which strips) says not vague. -/
theorem vague_spec_as_stated_disagrees_with_code :
    isVagueSpecStated (pyStr " 123 Main St") = true ∧
    is_vague_address (pyStr " 123 Main St") = false := by
  exact ⟨by decide, by decide⟩

/-- C5 counterexample: normalization is not idempotent — `"nan.0"` cleans to
`"nan"`, which a second pass maps to the empty string. -/
theorem normalize_not_idempotent_on_nan0 :
    clean_core (clean_core (pyStr "nan.0")) ≠ clean_core (pyStr "nan.0") := by
  decide

/-- A list all of whose elements satisfy the predicate is fixed by `takeWhile`. -/
lemma takeWhile_of_all {p : Nat → Bool} :
    ∀ l : Str, (∀ x ∈ l, p x = true) → List.takeWhile p l = l
  | [], _ => rfl
  | c :: rest, h => by
    rw [List.takeWhile_cons_of_pos (h c (List.mem_cons_self c rest))]
    rw [takeWhile_of_all rest (fun x hx => h x (List.mem_cons_of_mem c hx))]

/-- A list all of whose elements satisfy the predicate is emptied by `dropWhile`. -/
lemma dropWhile_of_all {p : Nat → Bool} :
    ∀ l : Str, (∀ x ∈ l, p x = true) → List.dropWhile p l = []
  | [], _ => rfl
  | c :: rest, h => by
    rw [List.dropWhile_cons_of_pos (h c (List.mem_cons_self c rest))]
    exact dropWhile_of_all rest (fun x hx => h x (List.mem_cons_of_mem c hx))

/-- Over an append, `takeWhile` passes through a fully-satisfying left factor. -/
lemma takeWhile_append_all {p : Nat → Bool} :
    ∀ (l m : Str), (∀ x ∈ l, p x = true) →
      List.takeWhile p (l ++ m) = l ++ List.takeWhile p m
  | [], m, _ => rfl
  | c :: rest, m, h => by
    rw [List.cons_append, List.takeWhile_cons_of_pos (h c (List.mem_cons_self c rest))]
    rw [takeWhile_append_all rest m (fun x hx => h x (List.mem_cons_of_mem c hx))]
    rfl

/-- Over an append, `dropWhile` discards a fully-satisfying left factor. -/
lemma dropWhile_append_all {p : Nat → Bool} :
    ∀ (l m : Str), (∀ x ∈ l, p x = true) →
      List.dropWhile p (l ++ m) = List.dropWhile p m
  | [], m, _ => rfl
  | c :: rest, m, h => by
    rw [List.cons_append, List.dropWhile_cons_of_pos (h c (List.mem_cons_self c rest))]
    exact dropWhile_append_all rest m (fun x hx => h x (List.mem_cons_of_mem c hx))

/-- Tokenization skips a leading whitespace code point. -/
lemma tok_cons_ws (c : Nat) (rest : Str) (h : isWs c = true) :
    pyTokens (c :: rest) = pyTokens rest := by
  simp [pyTokens, h]

/-- One-step unfolding of `pyTokens` at a non-whitespace head. -/
lemma tok_unfold (c : Nat) (rest : Str) (hc : isWs c = false) :
    pyTokens (c :: rest) =
      match pyTokens rest with
      | [] => [[c]]
      | t :: ts =>
        match rest with
        | [] => [[c]]
        | d :: _ => if isWs d then [c] :: t :: ts else (c :: t) :: ts := by
  simp only [pyTokens, hc, Bool.false_eq_true, if_false]
  cases pyTokens rest <;> cases rest <;> rfl

/-- Tokenization at a non-whitespace head: the first token is the maximal
non-whitespace run, and tokenization continues after it. -/
lemma tok_cons_nws :
    ∀ (rest : Str) (c : Nat), isWs c = false →
      pyTokens (c :: rest) =
        (c :: rest.takeWhile (fun d => !isWs d)) ::
          pyTokens (rest.dropWhile (fun d => !isWs d))
  | [], c, h => by simp [pyTokens, h]
  | d :: rest', c, h => by
    by_cases hd : isWs d = true
    · rw [List.takeWhile_cons_of_neg (by simp [hd]),
        List.dropWhile_cons_of_neg (by simp [hd])]
      rw [tok_unfold c (d :: rest') h, tok_cons_ws d rest' hd]
      cases hrec : pyTokens rest' with
      | nil => simp [hd]
      | cons t ts => simp [hd]
    · have hd' : isWs d = false := Bool.eq_false_iff.mpr hd
      have IH := tok_cons_nws rest' d hd'
      rw [List.takeWhile_cons_of_pos (by simp [hd']),
        List.dropWhile_cons_of_pos (by simp [hd'])]
      rw [tok_unfold c (d :: rest') h, IH]
      simp [hd']

/-- Applying `dropWhile` never lengthens a list. -/
lemma dropWhile_length_le {p : Nat → Bool} :
    ∀ l : Str, (List.dropWhile p l).length ≤ l.length
  | [] => Nat.le_refl 0
  | c :: rest => by
    by_cases h : p c = true
    · rw [List.dropWhile_cons_of_pos h]
      exact Nat.le_succ_of_le (dropWhile_length_le rest)
    · rw [List.dropWhile_cons_of_neg h]

/-- Every token `pyTokens` produces is nonempty and whitespace-free. -/
lemma pyTokens_wf_aux : ∀ (n : Nat) (s : Str), s.length ≤ n → wfToks (pyTokens s)
  | _, [], _ => by intro t ht; simp [pyTokens] at ht
  | 0, c :: rest, hlen => by simp at hlen
  | n + 1, c :: rest, hlen => by
    have hr : rest.length ≤ n := by simp at hlen; omega
    by_cases hc : isWs c = true
    · rw [tok_cons_ws c rest hc]
      exact pyTokens_wf_aux n rest hr
    · have hc' : isWs c = false := Bool.eq_false_iff.mpr hc
      rw [tok_cons_nws rest c hc']
      intro t ht
      rcases List.mem_cons.mp ht with h | h
      · subst h
        refine ⟨List.cons_ne_nil c _, ?_⟩
        intro x hx
        rcases List.mem_cons.mp hx with h | h
        · subst h; exact hc'
        · have := List.mem_takeWhile_imp h
          simpa using this
      · have hd : (List.dropWhile (fun d => !isWs d) rest).length ≤ n :=
          Nat.le_trans (dropWhile_length_le rest) hr
        exact pyTokens_wf_aux n _ hd t h

/-- Every token `pyTokens` produces is nonempty and whitespace-free. -/
lemma pyTokens_wf (s : Str) : wfToks (pyTokens s) :=
  pyTokens_wf_aux s.length s (Nat.le_refl _)

/-- Unfolding of `joinSp` on at least two tokens. -/
lemma joinSp_cons2 (t t2 : Str) (ts : List Str) :
    joinSp (t :: t2 :: ts) = t ++ 32 :: joinSp (t2 :: ts) := rfl

/-- Tokenizing a space-join of nonempty whitespace-free tokens recovers them. -/
lemma tokens_joinSp : ∀ T : List Str, wfToks T → pyTokens (joinSp T) = T
  | [], _ => rfl
  | [t], h => by
    obtain ⟨hne, hws⟩ := h t (List.mem_cons_self t [])
    obtain ⟨c, t', rfl⟩ := List.exists_cons_of_ne_nil hne
    have hc : isWs c = false := hws c (List.mem_cons_self c t')
    show pyTokens (c :: t') = [c :: t']
    rw [tok_cons_nws t' c hc]
    rw [takeWhile_of_all t' (fun x hx => by
      simp [hws x (List.mem_cons_of_mem c hx)])]
    rw [dropWhile_of_all t' (fun x hx => by
      simp [hws x (List.mem_cons_of_mem c hx)])]
    rfl
  | t :: t2 :: ts, h => by
    obtain ⟨hne, hws⟩ := h t (List.mem_cons_self t _)
    obtain ⟨c, t', rfl⟩ := List.exists_cons_of_ne_nil hne
    have hc : isWs c = false := hws c (List.mem_cons_self c t')
    have hall : ∀ x ∈ t', (fun d => !isWs d) x = true := fun x hx => by
      simp [hws x (List.mem_cons_of_mem c hx)]
    have IH := tokens_joinSp (t2 :: ts) (fun u hu => h u (List.mem_cons_of_mem _ hu))
    rw [joinSp_cons2, List.cons_append]
    rw [tok_cons_nws (t' ++ 32 :: joinSp (t2 :: ts)) c hc]
    rw [takeWhile_append_all t' _ hall, dropWhile_append_all t' _ hall]
    rw [List.takeWhile_cons_of_neg (by simp [isWs]), List.append_nil]
    rw [List.dropWhile_cons_of_neg (by simp [isWs])]
    rw [tok_cons_ws 32 _ (by simp [isWs]), IH]

/-- Appending one more token to a nonempty join adds one separator. -/
lemma joinSp_append_single :
    ∀ (M : List Str) (x : Str), M ≠ [] → joinSp (M ++ [x]) = joinSp M ++ 32 :: x
  | [], _, h => absurd rfl h
  | [m], x, _ => rfl
  | m :: m2 :: M', x, _ => by
    have IH := joinSp_append_single (m2 :: M') x (List.cons_ne_nil m2 M')
    show joinSp (m :: ((m2 :: M') ++ [x])) = (m ++ 32 :: joinSp (m2 :: M')) ++ 32 :: x
    have hcons : (m2 :: M') ++ [x] = m2 :: (M' ++ [x]) := rfl
    rw [hcons, joinSp_cons2, ← hcons, IH, List.append_assoc]
    rfl

/-- Reversing a space-join reverses the tokens and their order. -/
lemma joinSp_reverse :
    ∀ T : List Str, (joinSp T).reverse = joinSp ((T.map List.reverse).reverse)
  | [] => rfl
  | [t] => rfl
  | t :: t2 :: ts => by
    have IH := joinSp_reverse (t2 :: ts)
    have hM : ((t2 :: ts).map List.reverse).reverse ≠ [] := by simp
    rw [joinSp_cons2, List.reverse_append, List.reverse_cons]
    rw [List.append_assoc, List.singleton_append, IH]
    rw [← joinSp_append_single _ t.reverse hM]
    simp

/-- Token well-formedness survives reversing tokens and their order. -/
lemma wfToks_reverse (T : List Str) (h : wfToks T) :
    wfToks ((T.map List.reverse).reverse) := by
  intro t ht
  rw [List.mem_reverse, List.mem_map] at ht
  obtain ⟨u, hu, rfl⟩ := ht
  obtain ⟨hne, hws⟩ := h u hu
  refine ⟨by simpa using hne, ?_⟩
  intro c hc
  exact hws c (List.mem_reverse.mp hc)

/-- A space-join of nonempty whitespace-free tokens has no leading whitespace. -/
lemma dropWhile_joinSp : ∀ T : List Str, wfToks T →
    List.dropWhile isWs (joinSp T) = joinSp T
  | [], _ => rfl
  | [t], h => by
    obtain ⟨hne, hws⟩ := h t (List.mem_cons_self t [])
    obtain ⟨c, t', rfl⟩ := List.exists_cons_of_ne_nil hne
    show List.dropWhile isWs (c :: t') = c :: t'
    rw [List.dropWhile_cons_of_neg (by simp [hws c (List.mem_cons_self c t')])]
  | t :: t2 :: ts, h => by
    obtain ⟨hne, hws⟩ := h t (List.mem_cons_self t _)
    obtain ⟨c, t', rfl⟩ := List.exists_cons_of_ne_nil hne
    rw [joinSp_cons2, List.cons_append]
    rw [List.dropWhile_cons_of_neg (by simp [hws c (List.mem_cons_self c t')])]

/-- A space-join of nonempty whitespace-free tokens is fixed by `str.strip()`. -/
lemma strip_joinSp (T : List Str) (h : wfToks T) : pyStrip (joinSp T) = joinSp T := by
  unfold pyStrip
  rw [dropWhile_joinSp T h, joinSp_reverse T,
    dropWhile_joinSp _ (wfToks_reverse T h), ← joinSp_reverse T,
    List.reverse_reverse]

/-- Stripping is a no-op after whitespace collapsing. -/
lemma strip_pyCollapse (s : Str) : pyStrip (pyCollapse s) = pyCollapse s :=
  strip_joinSp (pyTokens s) (pyTokens_wf s)

/-- Whitespace collapsing is idempotent. -/
lemma pyCollapse_idem (s : Str) : pyCollapse (pyCollapse s) = pyCollapse s := by
  unfold pyCollapse
  rw [tokens_joinSp (pyTokens s) (pyTokens_wf s)]

/-- Cleaning the empty string yields the empty string. -/
lemma clean_core_nil : clean_core [] = [] := by decide

/-- A collapsed string that is not "nan" and has no ".0" suffix is fixed by
`clean_core`. -/
lemma clean_core_of_collapse (z : Str)
    (h1 : pyLower (pyCollapse z) ≠ pyStr "nan")
    (h2 : endsIn (pyStr ".0") (pyCollapse z) = false) :
    clean_core (pyCollapse z) = pyCollapse z := by
  unfold clean_core
  rw [strip_pyCollapse z, if_neg h1, if_neg (by simp [h2]), pyCollapse_idem]

/-- C5 as amended: normalization is idempotent on every input whose normalized
value neither equals "nan" case-insensitively nor ends in ".0"; the two
exceptional shapes can shrink further on a second pass. -/
theorem normalize_idempotent_amended (x : Str)
    (h1 : pyLower (clean_core x) ≠ pyStr "nan")
    (h2 : endsIn (pyStr ".0") (clean_core x) = false) :
    clean_core (clean_core x) = clean_core x := by
  by_cases hn : pyLower (pyStrip x) = pyStr "nan"
  · have hx : clean_core x = [] := by unfold clean_core; rw [if_pos hn]
    rw [hx, clean_core_nil]
  · by_cases he : endsIn (pyStr ".0") (pyStrip x) = true
    · have hx : clean_core x = pyCollapse (rdrop 2 (pyStrip x)) := by
        unfold clean_core; rw [if_neg hn, if_pos he]
      rw [hx] at h1 h2 ⊢
      exact clean_core_of_collapse _ h1 h2
    · have hx : clean_core x = pyCollapse (pyStrip x) := by
        unfold clean_core; rw [if_neg hn, if_neg he]
      rw [hx] at h1 h2 ⊢
      exact clean_core_of_collapse _ h1 h2

/-- Witness for C5 (amended) on a concrete messy address. -/
theorem normalize_idempotent_amended_witness :
    pyLower (clean_core (pyStr " 123  Main   St ")) ≠ pyStr "nan" ∧
    endsIn (pyStr ".0") (clean_core (pyStr " 123  Main   St ")) = false ∧
    clean_core (clean_core (pyStr " 123  Main   St ")) =
      clean_core (pyStr " 123  Main   St ") :=
  ⟨by decide, by decide,
   normalize_idempotent_amended (pyStr " 123  Main   St ") (by decide) (by decide)⟩

/-- Python `s.split(' ')` never returns the empty list. -/
lemma pySplitSp_ne_nil : ∀ s : Str, pySplitSp s ≠ []
  | [] => by simp [pySplitSp]
  | c :: rest => by
    by_cases h : c == 32
    · simp [pySplitSp, h]
    · cases hrec : pySplitSp rest <;> simp [pySplitSp, h, hrec]

/-- The first element of `s.split(' ')` is the run before the first space. -/
lemma pySplitSp_head :
    ∀ s : Str, (pySplitSp s).headD [] = s.takeWhile (fun c => !(c == 32))
  | [] => rfl
  | c :: rest => by
    by_cases h : (c == 32) = true
    · have hc : c = 32 := by simpa using h
      subst hc
      rw [List.takeWhile_cons_of_neg (by simp)]
      simp [pySplitSp]
    · have h' : (c == 32) = false := Bool.eq_false_iff.mpr h
      have IH := pySplitSp_head rest
      rw [List.takeWhile_cons_of_pos (by simp [h'])]
      cases hrec : pySplitSp rest with
      | nil => exact absurd hrec (pySplitSp_ne_nil rest)
      | cons t ts =>
        rw [hrec] at IH
        simp [pySplitSp, h', hrec]
        exact IH

/-- C2 as amended: the code's classifier coincides, on every string, with the
spec's reference definition once the latter is amended to strip leading and
trailing whitespace after uppercasing (mirroring the code's
`addr.upper().strip()`). -/
theorem vague_classifier_equals_stripped_spec (addr : Str) :
    is_vague_address addr = isVagueSpec addr := by
  unfold is_vague_address isVagueSpec
  simp only [pySplitSp_head]
  rfl

